import Mathlib

/-!
Verification of the rosnodejs top-level facade (`index.js`, shown as
`src/unnamed/part_000`) and the clock module (`src/dist/lib/Time.js`).

The JavaScript is event-driven; we embed it shallowly:
* the `_checkMasterHelper` retry loop becomes a fuel-indexed iteration over an
  abstract environment recording, for each poll `n`, whether the local slave
  API server had finished binding (`rosNode.slaveApiSetupComplete()`), whether
  the master RPC endpoint answered (`rosNode.getMasterUri(...)` succeeding),
  and the elapsed wall time `Date.now() - startTime` observed in that poll
  callback;
* module-level mutable variables (`rosNode`, `pingMasterTimeout`, `useSimTime`,
  `simTime`, `simTimeSub`) become fields of explicit state records threaded
  through the functions that mutate them;
* promises become `Except`/outcome values.
-/

namespace Rosnodejs

/-- The errors the registry-connect loop can reject with, using the spec's
names: `RegistrationTimeout` is the code's
`Error('Unable to setup slave API server.')` (slave server never finished
binding before the deadline) and `RegistryUnavailable` is the code's
`Error('Registration with master timed out.')` (master never answered within
the bounded wait). -/
inductive ConnectError where
  | RegistrationTimeout
  | RegistryUnavailable
deriving DecidableEq, Repr

/-- Abstract environment observed by the retry loop of `_checkMasterHelper`,
indexed by poll number `n` (poll `n` is the body of the `n`-th `setTimeout`
callback). -/
structure ConnectEnv where
  /-- value of `rosNode.slaveApiSetupComplete()` at poll `n`. -/
  slaveReady : Nat → Bool
  /-- whether `rosNode.getMasterUri({ maxAttempts: 1 })` succeeds at poll `n`. -/
  masterUp : Nat → Bool
  /-- value of `Date.now() - startTime` (ms) observed at poll `n`; polls are
  spaced by the `timeout` poll interval, so this is nondecreasing in real runs,
  though no theorem below needs that. -/
  elapsed : Nat → Nat

/-- The guard `Date.now() - startTime >= maxTimeout && !(maxTimeout < 0)`
appearing (twice) in `_checkMasterHelper`'s `localHelper`. -/
def deadlineExpired (maxTimeout : Int) (elapsedMs : Nat) : Bool :=
  decide (maxTimeout ≤ (elapsedMs : Int)) && !(decide (maxTimeout < 0))

/-- Result of one iteration of `localHelper`. -/
inductive StepResult where
  | retry
  | resolved
  | rejected (e : ConnectError)
deriving DecidableEq, Repr

/-- One iteration of `localHelper` (the body of the `setTimeout` callback) at
poll `n`:
* if `!rosNode.slaveApiSetupComplete()`: reject with the slave-API error when
  the deadline guard holds, otherwise re-arm the timer (`retry`);
* otherwise attempt `rosNode.getMasterUri({ maxAttempts: 1 })`: on success
  resolve; on failure reject with the master-timeout error when the deadline
  guard holds, otherwise log a throttled warning and re-arm the timer. -/
def attemptStep (maxTimeout : Int) (env : ConnectEnv) (n : Nat) : StepResult :=
  if env.slaveReady n = false then
    if deadlineExpired maxTimeout (env.elapsed n) then
      .rejected .RegistrationTimeout
    else
      .retry
  else if env.masterUp n then
    .resolved
  else if deadlineExpired maxTimeout (env.elapsed n) then
    .rejected .RegistryUnavailable
  else
    .retry

/-- Fuel-bounded run of `localHelper` starting at poll `n`.  `none` means the
loop is still retrying after `fuel` polls; `some (r, k)` means the promise
settled with `r` and a total of `k` polls were performed (so `k - n` polls by
this partial run).  The attempt count makes "exactly one attempt" statable. -/
def checkMasterFrom (maxTimeout : Int) (env : ConnectEnv) :
    Nat → Nat → Option (Except ConnectError Unit × Nat)
  | _, 0 => none
  | n, fuel + 1 =>
    match attemptStep maxTimeout env n with
    | .retry => checkMasterFrom maxTimeout env (n + 1) fuel
    | .resolved => some (.ok (), n + 1)
    | .rejected e => some (.error e, n + 1)

/-- `_checkMasterHelper(timeout, maxTimeout)`: the promise returned, observed
for `fuel` polls.  The `timeout` poll interval only spaces the polls in real
time and is absorbed into `env.elapsed`. -/
def checkMasterHelper (maxTimeout : Int) (env : ConnectEnv) (fuel : Nat) :
    Option (Except ConnectError Unit × Nat) :=
  checkMasterFrom maxTimeout env 0 fuel

/-- A `{secs, nsecs}` ROS time value. -/
structure RosTime where
  secs : Nat
  nsecs : Nat
deriving DecidableEq, Repr

/-- Modelled from the spec: `time_utils.dateToRosTime` (the `time_utils.js`
helper is required by `Time.js` but is not among the shown sources); it turns
a millisecond date into a `{secs, nsecs}` time, so `dateToRosTime 0`, the
module-level initialiser of `simTime`, is the zero time the spec says sim-mode
`now()` returns before the first clock message. -/
def dateToRosTime (ms : Nat) : RosTime :=
  ⟨ms / 1000, ms % 1000 * 1000000⟩

/-- A `rosgraph_msgs/Clock` message as consumed by `handleSimTimeMessage`. -/
structure ClockMsg where
  clock : RosTime
deriving DecidableEq, Repr

/-- The module-level mutable state of `Time.js`: the exported `useSimTime`
flag, the `simTime` variable, and whether `simTimeSub` holds a subscription
(non-null). -/
structure TimeState where
  useSimTime : Bool
  simTime : RosTime
  simTimeSub : Bool
deriving DecidableEq, Repr

/-- The state of `Time.js` at module load: `useSimTime: false`,
`simTime = dateToRosTime(0)`, `simTimeSub = null`. -/
def initialTimeState : TimeState :=
  { useSimTime := false, simTime := dateToRosTime 0, simTimeSub := false }

/-- `handleSimTimeMessage(msg)`: `simTime = msg.clock`. -/
def handleSimTimeMessage (msg : ClockMsg) (st : TimeState) : TimeState :=
  { st with simTime := msg.clock }

/-- `Time.now()`: returns `simTime` when `useSimTime`, else the wall clock
(`timeUtils.now()`, supplied here as the argument `wallClock`). -/
def timeNow (st : TimeState) (wallClock : RosTime) : RosTime :=
  if st.useSimTime then st.simTime else wallClock

/-- Outcome of the `nh.getParam('/use_sim_time')` promise: either a value, or
a rejection whose error may or may not carry a `statusCode` field
(`err.statusCode === undefined` is embedded as `statusCode = none`). -/
inductive ParamLookupResult where
  | ok (val : Bool)
  | err (statusCode : Option Int)
deriving DecidableEq, Repr

/-- The rejection of `_initializeRosTime`'s promise (the re-thrown lookup
error). -/
inductive TimeInitError where
  | paramLookupFailed
deriving DecidableEq, Repr

/-- `Time._initializeRosTime(rosnodejs, notime)`: resolves immediately when
`notime`; otherwise looks up `/use_sim_time`, and on success sets
`useSimTime = val` and subscribes to `/clock` when `val`; on rejection it
re-throws the error exactly when `err.statusCode === undefined`, otherwise
swallows it, leaving the state as-is. -/
def _initializeRosTime (notime : Bool) (lookup : ParamLookupResult)
    (st : TimeState) : Except TimeInitError TimeState :=
  if notime then .ok st
  else
    match lookup with
    | .ok val =>
      .ok { st with useSimTime := val,
                    simTimeSub := if val then true else st.simTimeSub }
    | .err none => .error .paramLookupFailed
    | .err (some _) => .ok st

/-- Rejection of the `initNode` promise chain, as surfaced by its `catch`. -/
inductive InitError where
  | connect (e : ConnectError)
  | clockInit (e : TimeInitError)
deriving DecidableEq, Repr

/-- The tail of `initNode`'s promise chain after the node is created:
`_checkMasterHelper(100, options.timeout)` then (logging setup, elided as it
cannot reject in the claims' scope) `Time._initializeRosTime`; any stage error
hits the `catch`, which rejects the returned promise. -/
def initNodeStartup (connectResult : Except ConnectError Unit) (notime : Bool)
    (lookup : ParamLookupResult) (st : TimeState) :
    Except InitError TimeState :=
  match connectResult with
  | .error e => .error (.connect e)
  | .ok () =>
    match _initializeRosTime notime lookup st with
    | .error e => .error (.clockInit e)
    | .ok st' => .ok st'

/-- Repeated arrival of clock messages: each runs `handleSimTimeMessage`. -/
def applyClockMsgs (msgs : List ClockMsg) (st : TimeState) : TimeState :=
  msgs.foldl (fun s m => handleSimTimeMessage m s) st

/-- Spec-side characterisation for claim C5, following the spec's words: the
most recent value received on the clock topic, or the given default when no
message has arrived. -/
def specMostRecentClock (dflt : RosTime) : List ClockMsg → RosTime
  | [] => dflt
  | m :: ms => specMostRecentClock m.clock ms

lemma applyClockMsgs_fields : ∀ (msgs : List ClockMsg) (st : TimeState),
    (applyClockMsgs msgs st).simTime = specMostRecentClock st.simTime msgs ∧
    (applyClockMsgs msgs st).useSimTime = st.useSimTime := by
  intro msgs
  induction msgs with
  | nil => intro st; exact ⟨rfl, rfl⟩
  | cons m ms ih =>
    intro st
    have h := ih (handleSimTimeMessage m st)
    exact ⟨h.1, h.2⟩

/-- Claim C4: clock-mode initialisation during startup looks up the sim-time
parameter; a rejection without a `statusCode` (any error other than the
registry-reported "parameter not set") rejects `_initializeRosTime` and hence
the startup promise, while a rejection carrying a `statusCode` is tolerated:
the state is untouched and the node proceeds in wall-clock mode
(`useSimTime = false` from the initial state). -/
theorem clock_init_tolerates_only_param_not_set (ts : TimeState) :
    (∀ st : TimeState,
        _initializeRosTime false (.err none) st = .error .paramLookupFailed) ∧
    (∀ (st : TimeState) (c : Int),
        _initializeRosTime false (.err (some c)) st = .ok st) ∧
    (initNodeStartup (.ok ()) false (.err none) ts
        = .error (.clockInit .paramLookupFailed)) ∧
    (∀ c : Int,
        initNodeStartup (.ok ()) false (.err (some c)) initialTimeState
            = .ok initialTimeState ∧
        initialTimeState.useSimTime = false) := by
  refine ⟨fun st => rfl, fun st c => rfl, rfl, fun c => ⟨rfl, rfl⟩⟩

/-- Claim C5: in simulated-time mode `now()` returns the current `simTime`;
after any sequence of clock messages it returns the most recent received
clock value (with the prior `simTime` as default when none arrived), it does
not depend on the wall clock, and the initial `simTime` is the zero time. -/
theorem sim_time_now_returns_last_clock (st : TimeState)
    (h : st.useSimTime = true) :
    (∀ w, timeNow st w = st.simTime) ∧
    (∀ msgs w,
        timeNow (applyClockMsgs msgs st) w = specMostRecentClock st.simTime msgs) ∧
    (∀ msgs w₁ w₂,
        timeNow (applyClockMsgs msgs st) w₁ = timeNow (applyClockMsgs msgs st) w₂) ∧
    initialTimeState.simTime = ⟨0, 0⟩ := by
  have hnow : ∀ msgs w,
      timeNow (applyClockMsgs msgs st) w = specMostRecentClock st.simTime msgs := by
    intro msgs w
    have hf := applyClockMsgs_fields msgs st
    unfold timeNow
    rw [hf.2, h, if_pos rfl, hf.1]
  refine ⟨fun w => by unfold timeNow; rw [h, if_pos rfl], hnow, ?_, rfl⟩
  intro msgs w₁ w₂
  rw [hnow msgs w₁, hnow msgs w₂]

theorem sim_time_now_returns_last_clock_ev :
    timeNow (applyClockMsgs [⟨⟨1, 0⟩⟩, ⟨⟨2, 500⟩⟩]
        ⟨true, ⟨3, 4⟩, true⟩) ⟨99, 0⟩
      = specMostRecentClock ⟨3, 4⟩ [⟨⟨1, 0⟩⟩, ⟨⟨2, 500⟩⟩] :=
  (sim_time_now_returns_last_clock ⟨true, ⟨3, 4⟩, true⟩ rfl).2.1
    [⟨⟨1, 0⟩⟩, ⟨⟨2, 500⟩⟩] ⟨99, 0⟩

lemma checkMasterFrom_retries (maxTimeout : Int) (env : ConnectEnv) :
    ∀ (n j fuel : Nat),
      (∀ m, m < n → attemptStep maxTimeout env (j + m) = .retry) →
      checkMasterFrom maxTimeout env j (n + fuel)
        = checkMasterFrom maxTimeout env (j + n) fuel := by
  intro n
  induction n with
  | zero => intro j fuel _; rw [Nat.zero_add, Nat.add_zero]
  | succ n ih =>
    intro j fuel h
    have h0 : attemptStep maxTimeout env j = .retry := by
      have := h 0 (Nat.succ_pos n)
      simpa using this
    have hrest : ∀ m, m < n → attemptStep maxTimeout env (j + 1 + m) = .retry := by
      intro m hm
      have := h (m + 1) (Nat.succ_lt_succ hm)
      simpa [Nat.add_comm, Nat.add_assoc, Nat.add_left_comm] using this
    have : n + 1 + fuel = (n + fuel) + 1 := by omega
    rw [this]
    show checkMasterFrom maxTimeout env j ((n + fuel) + 1)
        = checkMasterFrom maxTimeout env (j + (n + 1)) fuel
    rw [checkMasterFrom, h0]
    have := ih (j + 1) fuel hrest
    rw [this]
    have harg : j + 1 + n = j + (n + 1) := by omega
    rw [harg]

lemma checkMasterFrom_ok_imp (maxTimeout : Int) (env : ConnectEnv) :
    ∀ (fuel j k : Nat),
      checkMasterFrom maxTimeout env j fuel = some (.ok (), k) →
      ∃ i, j ≤ i ∧ env.slaveReady i = true ∧ env.masterUp i = true := by
  intro fuel
  induction fuel with
  | zero => intro j k h; simp [checkMasterFrom] at h
  | succ fuel ih =>
    intro j k h
    rw [checkMasterFrom] at h
    rcases hstep : attemptStep maxTimeout env j with _ | _ | e
    · rw [hstep] at h
      obtain ⟨i, hji, hs, hm⟩ := ih (j + 1) k h
      exact ⟨i, by omega, hs, hm⟩
    · refine ⟨j, Nat.le_refl j, ?_, ?_⟩ <;>
      · unfold attemptStep at hstep
        by_cases hs : env.slaveReady j = false <;>
          by_cases hm : env.masterUp j = true <;>
            simp [hs, hm] at hstep ⊢ <;>
              first
                | rfl
                | (split at hstep <;> simp_all)
    · rw [hstep] at h
      simp at h

lemma checkMasterFrom_all_retry_none (maxTimeout : Int) (env : ConnectEnv) :
    ∀ (fuel j : Nat),
      (∀ m, m < fuel → attemptStep maxTimeout env (j + m) = .retry) →
      checkMasterFrom maxTimeout env j fuel = none := by
  intro fuel
  induction fuel with
  | zero => intro j _; rfl
  | succ fuel ih =>
    intro j h
    have h0 : attemptStep maxTimeout env j = .retry := by
      have := h 0 (Nat.succ_pos fuel)
      simpa using this
    rw [checkMasterFrom, h0]
    exact ih (j + 1) fun m hm => by
      have := h (m + 1) (Nat.succ_lt_succ hm)
      simpa [Nat.add_comm, Nat.add_assoc, Nat.add_left_comm] using this

lemma deadlineExpired_of_neg (maxTimeout : Int) (e : Nat)
    (hneg : maxTimeout < 0) : deadlineExpired maxTimeout e = false := by
  unfold deadlineExpired
  rw [decide_eq_true hneg]
  simp

lemma attemptStep_neg_no_reject (maxTimeout : Int) (env : ConnectEnv)
    (hneg : maxTimeout < 0) (n : Nat) (e : ConnectError) :
    attemptStep maxTimeout env n ≠ .rejected e := by
  unfold attemptStep
  rw [deadlineExpired_of_neg maxTimeout (env.elapsed n) hneg]
  by_cases hs : env.slaveReady n = false <;> by_cases hm : env.masterUp n = true <;>
    simp [hs, hm]

lemma checkMasterFrom_neg_no_error (maxTimeout : Int) (env : ConnectEnv)
    (hneg : maxTimeout < 0) :
    ∀ (fuel j : Nat) (e : ConnectError) (k : Nat),
      checkMasterFrom maxTimeout env j fuel ≠ some (.error e, k) := by
  intro fuel
  induction fuel with
  | zero => intro j e k h; simp [checkMasterFrom] at h
  | succ fuel ih =>
    intro j e k h
    rw [checkMasterFrom] at h
    rcases hstep : attemptStep maxTimeout env j with _ | _ | e'
    · rw [hstep] at h
      exact ih (j + 1) e k h
    · rw [hstep] at h
      simp at h
    · exact attemptStep_neg_no_reject maxTimeout env hneg j e' hstep

/-- Claim C1: the registry connect operation resolves successfully only when
both the registry's RPC endpoint has responded (`getMasterUri` succeeded) and
the local slave server has finished binding (`slaveApiSetupComplete()`); and
if the slave server has not finished binding at a poll where a non-negative
`maxWaitMs` deadline has expired, the call rejects with
`RegistrationTimeout`. -/
theorem connect_resolves_only_with_master_and_slave
    (maxTimeout : Int) (env : ConnectEnv) :
    (∀ fuel k, checkMasterHelper maxTimeout env fuel = some (.ok (), k) →
        ∃ i, env.slaveReady i = true ∧ env.masterUp i = true) ∧
    (∀ n fuel, 0 ≤ maxTimeout →
        (∀ m, m < n → attemptStep maxTimeout env m = .retry) →
        env.slaveReady n = false →
        maxTimeout ≤ (env.elapsed n : Int) →
        n < fuel →
        checkMasterHelper maxTimeout env fuel
          = some (.error .RegistrationTimeout, n + 1)) := by
  constructor
  · intro fuel k h
    obtain ⟨i, _, hs, hm⟩ := checkMasterFrom_ok_imp maxTimeout env fuel 0 k h
    exact ⟨i, hs, hm⟩
  · intro n fuel hnonneg hretry hslave hdeadline hfuel
    have hd : deadlineExpired maxTimeout (env.elapsed n) = true := by
      unfold deadlineExpired
      rw [decide_eq_true hdeadline, decide_eq_false (by omega)]
      rfl
    have hstep : attemptStep maxTimeout env n = .rejected .RegistrationTimeout := by
      simp [attemptStep, hslave, hd]
    have hsplit : fuel = n + (fuel - n) := by omega
    rw [checkMasterHelper, hsplit,
      checkMasterFrom_retries maxTimeout env n 0 (fuel - n)
        (fun m hm => by simpa using hretry m hm)]
    obtain ⟨s, hs⟩ : ∃ s, fuel - n = s + 1 := ⟨fuel - n - 1, by omega⟩
    rw [hs]
    show checkMasterFrom maxTimeout env (0 + n) (s + 1) = _
    rw [Nat.zero_add, checkMasterFrom, hstep]

theorem connect_resolves_only_with_master_and_slave_ev :
    checkMasterHelper 3 ⟨fun _ => false, fun _ => true, fun _ => 5⟩ 1
      = some (.error .RegistrationTimeout, 1) :=
  (connect_resolves_only_with_master_and_slave 3
      ⟨fun _ => false, fun _ => true, fun _ => 5⟩).2 0 1 (by decide)
    (fun m hm => absurd hm (Nat.not_lt_zero m)) rfl (by decide) (by decide)

/-- Claim C2: with `maxWaitMs = 0` against a registry that does not respond
(the slave server is up but `getMasterUri` fails at the first poll), the loop
performs exactly one attempt (total poll count 1) and rejects with
`RegistryUnavailable`, whatever fuel the promise is observed for. -/
theorem connect_zero_maxwait_single_attempt (env : ConnectEnv)
    (hs : env.slaveReady 0 = true) (hm : env.masterUp 0 = false) :
    ∀ fuel, 0 < fuel →
      checkMasterHelper 0 env fuel = some (.error .RegistryUnavailable, 1) := by
  intro fuel hfuel
  obtain ⟨s, rfl⟩ : ∃ s, fuel = s + 1 := ⟨fuel - 1, by omega⟩
  have hd : deadlineExpired 0 (env.elapsed 0) = true := by
    unfold deadlineExpired
    rw [decide_eq_true (by omega : (0 : Int) ≤ (env.elapsed 0 : Int)),
      decide_eq_false (by omega)]
    rfl
  have hstep : attemptStep 0 env 0 = .rejected .RegistryUnavailable := by
    simp [attemptStep, hs, hm, hd]
  rw [checkMasterHelper, checkMasterFrom, hstep]

theorem connect_zero_maxwait_single_attempt_ev :
    checkMasterHelper 0 ⟨fun _ => true, fun _ => false, fun _ => 0⟩ 5
      = some (.error .RegistryUnavailable, 1) :=
  connect_zero_maxwait_single_attempt
    ⟨fun _ => true, fun _ => false, fun _ => 0⟩ rfl rfl 5 (by decide)

/-- Claim C3: with a negative `maxWaitMs` the connect call never rejects, and
when the slave server is up throughout, the registry is down for the first `n`
polls and answers at poll `n`, the call is still pending (retrying at the poll
interval) after any `fuel ≤ n` polls and resolves at poll `n`, having made
`n + 1` attempts. -/
theorem connect_negative_maxwait_never_fails (maxTimeout : Int)
    (env : ConnectEnv) (hneg : maxTimeout < 0) :
    (∀ fuel e k, checkMasterHelper maxTimeout env fuel ≠ some (.error e, k)) ∧
    (∀ n,
      (∀ m, m ≤ n → env.slaveReady m = true) →
      (∀ m, m < n → env.masterUp m = false) →
      env.masterUp n = true →
      (∀ fuel, fuel ≤ n → checkMasterHelper maxTimeout env fuel = none) ∧
      checkMasterHelper maxTimeout env (n + 1) = some (.ok (), n + 1)) := by
  constructor
  · intro fuel e k
    exact checkMasterFrom_neg_no_error maxTimeout env hneg fuel 0 e k
  · intro n hslave hdown hup
    have hretry : ∀ m, m < n → attemptStep maxTimeout env m = .retry := by
      intro m hm
      have h1 : env.slaveReady m = true := hslave m (Nat.le_of_lt hm)
      have h2 : env.masterUp m = false := hdown m hm
      simp [attemptStep, h1, h2, deadlineExpired_of_neg maxTimeout _ hneg]
    constructor
    · intro fuel hfuel
      exact checkMasterFrom_all_retry_none maxTimeout env fuel 0
        (fun m hm => by simpa using hretry m (by omega))
    · have hstep : attemptStep maxTimeout env n = .resolved := by
        simp [attemptStep, hslave n (Nat.le_refl n), hup]
      rw [checkMasterHelper,
        show n + 1 = n + 1 from rfl,
        checkMasterFrom_retries maxTimeout env n 0 1
          (fun m hm => by simpa using hretry m hm)]
      show checkMasterFrom maxTimeout env (0 + n) 1 = _
      rw [Nat.zero_add, checkMasterFrom, hstep]

theorem connect_negative_maxwait_never_fails_ev :
    checkMasterHelper (-1)
        ⟨fun _ => true, fun n => n == 1, fun n => n * 100⟩ 2
      = some (.ok (), 2) :=
  ((connect_negative_maxwait_never_fails (-1)
      ⟨fun _ => true, fun n => n == 1, fun n => n * 100⟩ (by decide)).2 1
    (fun m _ => rfl) (by decide) rfl).2

/-- `_validateNodeName(nodeName)`: prefixes a `'/'` when the name does not
already start with one.  JavaScript strings are embedded as character lists;
`nodeName.startsWith('/')` is the one-character-prefix test. -/
def _validateNodeName (nodeName : List Char) : List Char :=
  if ['/'].isPrefixOf nodeName then nodeName else '/' :: nodeName

/-- `_anonymizeNodeName(nodeName)`:
`util.format('%s_%s_%s', nodeName, process.pid, Date.now())`, with the decimal
renderings of the pid and the timestamp supplied as character lists. -/
def _anonymizeNodeName (nodeName pid dateNow : List Char) : List Char :=
  nodeName ++ '_' :: pid ++ '_' :: dateNow

/-- The facade's view of a `RosNode`: its name (`getNodeName()`) and whether
it has been shut down (`isShutdown()`).  `RosNode.js` itself is not among the
shown sources; per the spec, `rosNode.shutdown()` marks the node unusable,
embedded as the `nodeIsShutdown` flag. -/
structure RosNode where
  nodeName : List Char
  nodeIsShutdown : Bool
deriving DecidableEq, Repr

/-- The module-level mutable state of the facade: the `rosNode` singleton
(`null` before `initNode`) and whether `pingMasterTimeout` holds a pending
connect-retry timer. -/
structure ModuleState where
  rosNode : Option RosNode
  pingMasterTimeout : Bool
deriving DecidableEq, Repr

/-- The immediate outcome of `initNode`: resolve with a `NodeHandle` wrapping
the existing `rosNode` (carrying that node's name), reject with the
duplicate-node error, or create the node and launch the startup promise
chain. -/
inductive InitNodeOutcome where
  | resolvedExisting (handleNode : List Char)
  | rejectedDuplicateNodeName
  | startedStartup (nodeName : List Char)
deriving DecidableEq, Repr

/-- `initNode(nodeName, options)` up to the point the startup chain is
launched: anonymize when `options.anonymous`, validate, then either resolve
with a handle to the existing node (same name), reject (different name), or
store a fresh `RosNode` and start the startup chain (whose tail is
`initNodeStartup`). -/
def initNode (st : ModuleState) (nodeName : List Char) (anonymous : Bool)
    (pid dateNow : List Char) : ModuleState × InitNodeOutcome :=
  let n1 := if anonymous then _anonymizeNodeName nodeName pid dateNow else nodeName
  let n2 := _validateNodeName n1
  match st.rosNode with
  | some r =>
    if n2 = r.nodeName then (st, .resolvedExisting r.nodeName)
    else (st, .rejectedDuplicateNodeName)
  | none => ({ st with rosNode := some ⟨n2, false⟩ }, .startedStartup n2)

/-- `ok()`: `rosNode && !rosNode.isShutdown()` (truthiness as `Bool`). -/
def facadeOk (st : ModuleState) : Bool :=
  match st.rosNode with
  | some r => !r.nodeIsShutdown
  | none => false

/-- `shutdown()` always returns a promise that resolves. -/
inductive ShutdownOutcome where
  | resolvedOk
deriving DecidableEq, Repr

/-- `shutdown()`: first `clearTimeout(pingMasterTimeout)` (cancels any pending
connect-retry timer), then `rosNode.shutdown()` when `ok()` (marking the node
shut down), else `Promise.resolve()`. -/
def shutdown (st : ModuleState) : ModuleState × ShutdownOutcome :=
  let st1 := { st with pingMasterTimeout := false }
  if facadeOk st1 then
    ({ st1 with
        rosNode := st1.rosNode.map fun r => { r with nodeIsShutdown := true } },
      .resolvedOk)
  else
    (st1, .resolvedOk)

lemma validateNodeName_startsWith (nodeName : List Char) :
    ['/'].isPrefixOf (_validateNodeName nodeName) = true := by
  unfold _validateNodeName
  split
  · assumption
  · simp [List.isPrefixOf]

/-- Claim C6: when a node already exists and the (anonymized, validated) new
name differs from its name, `initNode` rejects with the duplicate-node error
and the module state — in particular the existing node — is unchanged. -/
theorem initNode_duplicate_name_rejected (st : ModuleState) (r : RosNode)
    (nodeName pid dateNow : List Char) (anonymous : Bool)
    (hr : st.rosNode = some r)
    (hne : _validateNodeName
        (if anonymous then _anonymizeNodeName nodeName pid dateNow else nodeName)
      ≠ r.nodeName) :
    initNode st nodeName anonymous pid dateNow
      = (st, .rejectedDuplicateNodeName) := by
  unfold initNode
  rw [hr]
  simp [hne]

theorem initNode_duplicate_name_rejected_ev :
    initNode ⟨some ⟨['/', 'a'], false⟩, false⟩ ['b'] false [] []
      = (⟨some ⟨['/', 'a'], false⟩, false⟩, .rejectedDuplicateNodeName) :=
  initNode_duplicate_name_rejected ⟨some ⟨['/', 'a'], false⟩, false⟩
    ⟨['/', 'a'], false⟩ ['b'] [] [] false rfl (by decide)

/-- Claim C10: when a node already exists and the (anonymized, validated) new
name equals its name, `initNode` resolves with a handle to that existing node,
leaves the module state unchanged (no second node is created), and does not
launch the startup chain (no new registry connection attempt). -/
theorem initNode_same_name_idempotent (st : ModuleState) (r : RosNode)
    (nodeName pid dateNow : List Char) (anonymous : Bool)
    (hr : st.rosNode = some r)
    (heq : _validateNodeName
        (if anonymous then _anonymizeNodeName nodeName pid dateNow else nodeName)
      = r.nodeName) :
    initNode st nodeName anonymous pid dateNow
        = (st, .resolvedExisting r.nodeName) ∧
    ∀ n, (initNode st nodeName anonymous pid dateNow).2 ≠ .startedStartup n := by
  have h : initNode st nodeName anonymous pid dateNow
      = (st, .resolvedExisting r.nodeName) := by
    unfold initNode
    rw [hr]
    simp [heq]
  exact ⟨h, fun n => by rw [h]; simp⟩

theorem initNode_same_name_idempotent_ev :
    initNode ⟨some ⟨['/', 'a'], false⟩, true⟩ ['a'] false [] []
      = (⟨some ⟨['/', 'a'], false⟩, true⟩, .resolvedExisting ['/', 'a']) :=
  (initNode_same_name_idempotent ⟨some ⟨['/', 'a'], false⟩, true⟩
    ⟨['/', 'a'], false⟩ ['a'] [] [] false rfl (by decide)).1

/-- Claim C8: whenever `initNode` creates the node (no node existed), the
created node's fully-qualified name starts with the `'/'` path separator —
also when the name was rewritten by the anonymize option, since
`_validateNodeName` runs after `_anonymizeNodeName`. -/
theorem initNode_name_starts_with_separator (st : ModuleState)
    (nodeName pid dateNow : List Char) (anonymous : Bool)
    (h : st.rosNode = none) :
    ∃ r, (initNode st nodeName anonymous pid dateNow).1.rosNode = some r ∧
      ['/'].isPrefixOf r.nodeName = true := by
  refine ⟨⟨_validateNodeName
      (if anonymous then _anonymizeNodeName nodeName pid dateNow else nodeName),
      false⟩, ?_, validateNodeName_startsWith _⟩
  unfold initNode
  rw [h]

theorem initNode_name_starts_with_separator_ev :
    ∃ r, (initNode ⟨none, false⟩ ['a'] true ['7'] ['9']).1.rosNode = some r ∧
      ['/'].isPrefixOf r.nodeName = true :=
  initNode_name_starts_with_separator ⟨none, false⟩ ['a'] ['7'] ['9'] true rfl

/-- Claim C7: every `shutdown` call first clears any pending connect-retry
timer; a call on an already-shut-down facade resolves successfully with no
state change beyond that timer clear; and shutdown is idempotent: running it
again on the state a shutdown produced resolves and changes nothing. -/
theorem shutdown_idempotent (st : ModuleState) :
    ((shutdown st).1.pingMasterTimeout = false) ∧
    (facadeOk st = false →
        shutdown st = ({ st with pingMasterTimeout := false }, .resolvedOk)) ∧
    (shutdown (shutdown st).1 = ((shutdown st).1, .resolvedOk)) := by
  obtain ⟨rn, pt⟩ := st
  refine ⟨?_, ?_, ?_⟩
  · rcases rn with _ | ⟨nm, sd⟩
    · rfl
    · cases sd <;> rfl
  · intro hok
    rcases rn with _ | ⟨nm, sd⟩
    · rfl
    · cases sd
      · simp [facadeOk] at hok
      · rfl
  · rcases rn with _ | ⟨nm, sd⟩
    · rfl
    · cases sd <;> rfl

theorem shutdown_idempotent_ev :
    shutdown ⟨some ⟨['/', 'a'], true⟩, true⟩
      = (⟨some ⟨['/', 'a'], true⟩, false⟩, .resolvedOk) :=
  (shutdown_idempotent ⟨some ⟨['/', 'a'], true⟩, true⟩).2.1 rfl

/-- Modelled from the spec: `log.warnThrottle(interval, msg)` (the logging
utilities are not among the shown sources); per the spec it logs "at a
throttled rate (at most once per fixed interval)": it emits when nothing was
emitted yet or at least `intervalMs` ms passed since the last emission, and
records the emission time. -/
def warnThrottle (intervalMs : Nat) (lastLogTime : Option Nat) (nowMs : Nat) :
    Bool × Option Nat :=
  match lastLogTime with
  | none => (true, some nowMs)
  | some t =>
    if intervalMs ≤ nowMs - t then (true, some nowMs) else (false, some t)

/-- The times (values of `Date.now() - startTime`) at which the retry loop's
`log.warnThrottle(60000, ...)` call actually emits a warning, over `fuel`
polls starting at poll `n` with throttle state `last`.  The call sits in the
branch of `localHelper` where the slave server is up, `getMasterUri` failed
and the deadline guard does not hold — the branch that re-arms the retry
timer. -/
def connectWarnLog (maxTimeout : Int) (env : ConnectEnv) :
    Nat → Nat → Option Nat → List Nat
  | _, 0, _ => []
  | n, fuel + 1, last =>
    if env.slaveReady n = false then
      if deadlineExpired maxTimeout (env.elapsed n) then []
      else connectWarnLog maxTimeout env (n + 1) fuel last
    else if env.masterUp n then []
    else if deadlineExpired maxTimeout (env.elapsed n) then []
    else
      match warnThrottle 60000 last (env.elapsed n) with
      | (true, last') =>
        env.elapsed n :: connectWarnLog maxTimeout env (n + 1) fuel last'
      | (false, last') => connectWarnLog maxTimeout env (n + 1) fuel last'

lemma connectWarnLog_gap (maxTimeout : Int) (env : ConnectEnv) :
    ∀ (fuel n t : Nat) (x : Nat),
      x ∈ connectWarnLog maxTimeout env n fuel (some t) → t + 60000 ≤ x := by
  intro fuel
  induction fuel with
  | zero => intro n t x hx; simp [connectWarnLog] at hx
  | succ fuel ih =>
    intro n t x hx
    rw [connectWarnLog] at hx
    by_cases hs : env.slaveReady n = false
    · rw [if_pos hs] at hx
      by_cases hd : deadlineExpired maxTimeout (env.elapsed n) = true
      · simp [hd] at hx
      · rw [if_neg hd] at hx
        exact ih n.succ t x hx
    · rw [if_neg hs] at hx
      by_cases hm : env.masterUp n = true
      · simp [hm] at hx
      · rw [if_neg hm] at hx
        by_cases hd : deadlineExpired maxTimeout (env.elapsed n) = true
        · simp [hd] at hx
        · rw [if_neg hd] at hx
          by_cases hc : 60000 ≤ env.elapsed n - t
          · rw [warnThrottle, if_pos hc] at hx
            rcases List.mem_cons.mp hx with rfl | hx'
            · omega
            · have := ih n.succ (env.elapsed n) x hx'
              omega
          · rw [warnThrottle, if_neg hc] at hx
            exact ih n.succ t x hx

lemma connectWarnLog_pairwise (maxTimeout : Int) (env : ConnectEnv) :
    ∀ (fuel n : Nat) (last : Option Nat),
      (connectWarnLog maxTimeout env n fuel last).Pairwise
        (fun a b => a + 60000 ≤ b) := by
  intro fuel
  induction fuel with
  | zero => intro n last; simp [connectWarnLog]
  | succ fuel ih =>
    intro n last
    rw [connectWarnLog]
    by_cases hs : env.slaveReady n = false
    · rw [if_pos hs]
      by_cases hd : deadlineExpired maxTimeout (env.elapsed n) = true
      · simp [hd]
      · rw [if_neg hd]; exact ih n.succ last
    · rw [if_neg hs]
      by_cases hm : env.masterUp n = true
      · simp [hm]
      · rw [if_neg hm]
        by_cases hd : deadlineExpired maxTimeout (env.elapsed n) = true
        · simp [hd]
        · rw [if_neg hd]
          rcases last with _ | t
          · rw [warnThrottle]
            exact List.pairwise_cons.mpr
              ⟨fun b hb => connectWarnLog_gap maxTimeout env fuel n.succ _ b hb,
                ih n.succ (some (env.elapsed n))⟩
          · by_cases hc : 60000 ≤ env.elapsed n - t
            · rw [warnThrottle, if_pos hc]
              exact List.pairwise_cons.mpr
                ⟨fun b hb => connectWarnLog_gap maxTimeout env fuel n.succ _ b hb,
                  ih n.succ (some (env.elapsed n))⟩
            · rw [warnThrottle, if_neg hc]
              exact ih n.succ (some t)

lemma pairwise_gap_countP_window (w : Nat) :
    ∀ L : List Nat, L.Pairwise (fun a b => a + 60000 ≤ b) →
      L.countP (fun t => decide (w ≤ t) && decide (t < w + 60000)) ≤ 1 := by
  intro L
  induction L with
  | nil => intro _; simp
  | cons a L ih =>
    intro hp
    obtain ⟨ha, hL⟩ := List.pairwise_cons.mp hp
    rw [List.countP_cons]
    by_cases hin : (decide (w ≤ a) && decide (a < w + 60000)) = true
    · have h0 : L.countP (fun t => decide (w ≤ t) && decide (t < w + 60000)) = 0 := by
        rw [List.countP_eq_zero]
        intro b hb
        have hab := ha b hb
        simp only [Bool.and_eq_true, decide_eq_true_eq] at hin ⊢
        intro hcontra
        omega
      rw [h0, hin]
      simp
    · rw [if_neg hin, Nat.add_zero]
      exact ih hL

/-- Claim C9: over any run of the registry-connect retry loop, at most one
throttled warning is emitted within any 60-second window `[w, w + 60000)`,
however many failed connection attempts fall inside that window. -/
theorem connect_warn_throttled_per_window (maxTimeout : Int) (env : ConnectEnv)
    (fuel w : Nat) :
    (connectWarnLog maxTimeout env 0 fuel none).countP
        (fun t => decide (w ≤ t) && decide (t < w + 60000)) ≤ 1 :=
  pairwise_gap_countP_window w _ (connectWarnLog_pairwise maxTimeout env fuel 0 none)

end Rosnodejs
